import Mathlib

/-
Shallow embedding of the Pygame Snake game (snake.py, objects.py, game_init.py).

Geometry follows pygame's integer Rect semantics: `collideRect` is pygame's
rectangle-overlap test (used by `pygame.sprite.collide_rect` and
`pygame.sprite.spritecollideany`), and `containsRect` is pygame's
`Rect.contains`.
-/

set_option linter.unusedVariables false

/-- A pygame rectangle: top-left corner plus width and height (integers). -/
structure Rect where
  x : Int
  y : Int
  w : Int
  h : Int
  deriving DecidableEq

/-- Overlap test of two rectangles, as pygame computes it for
`collide_rect` / `spritecollideany`: touching edges do not collide. -/
def collideRect (a b : Rect) : Bool :=
  decide (a.x < b.x + b.w) && decide (a.y < b.y + b.h) &&
  decide (b.x < a.x + a.w) && decide (b.y < a.y + a.h)

/-- Pygame `Rect.contains`: the inner rectangle lies completely inside the
outer one. -/
def containsRect (outer inner : Rect) : Bool :=
  decide (outer.x ≤ inner.x) && decide (outer.y ≤ inner.y) &&
  decide (inner.x + inner.w ≤ outer.x + outer.w) &&
  decide (inner.y + inner.h ≤ outer.y + outer.h) &&
  decide (inner.x < outer.x + outer.w) && decide (inner.y < outer.y + outer.h)

/-- Pygame `Rect.move`: translate a rectangle by an offset. -/
def rectMove (r : Rect) (d : Int × Int) : Rect :=
  { r with x := r.x + d.1, y := r.y + d.2 }

/-- The rectangle lies entirely outside the other (no overlap at all). -/
def fullyOutside (r area : Rect) : Bool :=
  decide (r.x + r.w ≤ area.x) || decide (area.x + area.w ≤ r.x) ||
  decide (r.y + r.h ≤ area.y) || decide (area.y + area.h ≤ r.y)

/-- Movement direction; the source stores it as the strings
"moveup" / "movedown" / "moveleft" / "moveright" in `Snake.state`. -/
inductive Dir where
  | up
  | down
  | left
  | right
  deriving DecidableEq

/-- Two directions lie on the same axis (vertical or horizontal). -/
def sameAxis : Dir → Dir → Bool
  | Dir.up, Dir.up => true
  | Dir.up, Dir.down => true
  | Dir.down, Dir.up => true
  | Dir.down, Dir.down => true
  | Dir.left, Dir.left => true
  | Dir.left, Dir.right => true
  | Dir.right, Dir.left => true
  | Dir.right, Dir.right => true
  | _, _ => false

/-- State of the `Snake` sprite (objects.py, class Snake) together with its
body chain.  `chain` models the linked list of `Body` objects hanging off
`Snake.new_body`: one entry per created `Body` object, in chain order, the
entry recording whether that sprite has been added to the body group
(pygame `Sprite.alive`).  `updated` is the `_updated` debounce flag,
`hasTail` is `_has_tail`, `addTail` is `_add_tail`, `tailCount` is
`_tail_count`. -/
structure Snake where
  rect : Rect
  movepos : Int × Int
  state : Dir
  updated : Bool
  alive : Bool
  hasTail : Bool
  addTail : Nat
  tailCount : Nat
  chain : List Bool
  deriving DecidableEq

/-- Body.update (objects.py:86-125), restricted to the state it mutates:
each visited node adds itself to the body group if not yet alive; a node
reached with `count > 0` delegates to its tail with `count - 1` when it has
one; the node reached with `count = 0` calls `add_tail`, which appends a
single new (not yet live) node only when no tail exists yet.  Nodes beyond
the reached one are not visited. -/
def Body.update : List Bool → Nat → List Bool
  | [], _ => []
  | _ :: rest, 0 => true :: (if rest.isEmpty then [false] else rest)
  | _ :: rest, Nat.succ n => true :: Body.update rest n

/-- Snake.grow_body (objects.py:289-294): only when a tail already exists
are the growth counters bumped; the first call merely sets `_has_tail`. -/
def Snake.grow_body (s : Snake) : Snake :=
  if s.hasTail then
    { s with addTail := s.addTail + 1, tailCount := s.addTail + 1, hasTail := true }
  else
    { s with hasTail := true }

/-- Snake.moveup (objects.py:245-254): rejected while the current state is
on the vertical axis, while the debounce flag `_updated` is unset, or while
dead; on acceptance the y velocity is decreased by the sprite height, the x
velocity zeroed, and the debounce flag reset. -/
def Snake.moveup (s : Snake) : Snake :=
  if ¬(s.state = Dir.down ∨ s.state = Dir.up) then
    if s.updated then
      if s.alive then
        { s with movepos := (0, s.movepos.2 - s.rect.h), state := Dir.up, updated := false }
      else s
    else s
  else s

/-- Snake.moveleft (objects.py:256-265). -/
def Snake.moveleft (s : Snake) : Snake :=
  if ¬(s.state = Dir.right ∨ s.state = Dir.left) then
    if s.updated then
      if s.alive then
        { s with movepos := (s.movepos.1 - s.rect.w, 0), state := Dir.left, updated := false }
      else s
    else s
  else s

/-- Snake.movedown (objects.py:267-276). -/
def Snake.movedown (s : Snake) : Snake :=
  if ¬(s.state = Dir.up ∨ s.state = Dir.down) then
    if s.updated then
      if s.alive then
        { s with movepos := (0, s.movepos.2 + s.rect.h), state := Dir.down, updated := false }
      else s
    else s
  else s

/-- Snake.moveright (objects.py:278-287). -/
def Snake.moveright (s : Snake) : Snake :=
  if ¬(s.state = Dir.left ∨ s.state = Dir.right) then
    if s.updated then
      if s.alive then
        { s with movepos := (s.movepos.1 + s.rect.w, 0), state := Dir.right, updated := false }
      else s
    else s
  else s

/-- Dispatch a direction-change request to the matching handler, as the
event loop in game_init.py:146-155 does. -/
def moveCmd (d : Dir) (s : Snake) : Snake :=
  match d with
  | Dir.up => Snake.moveup s
  | Dir.down => Snake.movedown s
  | Dir.left => Snake.moveleft s
  | Dir.right => Snake.moveright s

/-- The body-chain portion of Snake.update (objects.py:224-230): when a
tail exists, reload `_tail_count` from `_add_tail` if positive, run the
chain update with it, then clear `_tail_count`. -/
def Snake.chainStep (s : Snake) : Snake :=
  if s.hasTail then
    let tc := if s.tailCount > 0 then s.addTail else s.tailCount
    { s with chain := Body.update s.chain tc, tailCount := 0 }
  else s

/-- Snake.update (objects.py:200-243): a no-op when dead; otherwise run the
body-chain step, move the rect by the velocity, set the debounce flag, kill
the snake when the new rect is not contained in the display, and kill it
when the new rect collides with any sprite of the body group (whose rects
are passed in as `bodies`). -/
def Snake.update (s : Snake) (bodies : List Rect) (area : Rect) : Snake :=
  if s.alive then
    let s1 := Snake.chainStep s
    let nr := rectMove s1.rect s1.movepos
    let s2 := { s1 with rect := nr, updated := true }
    let s3 := if containsRect area nr then s2 else { s2 with alive := false }
    if bodies.any (fun r => collideRect nr r) then { s3 with alive := false } else s3
  else s

/-- Fold Snake.update over a list of per-tick body-group rect lists. -/
def updateMany (s : Snake) (l : List (List Rect)) (area : Rect) : Snake :=
  l.foldl (fun st bs => Snake.update st bs area) s

/-- The snake as MainGame sets it up (objects.py:160-198, game_init.py:108-114):
a 49x49 sprite at the top middle of the 640x640 display, moving down one
cell per tick, with one `Body` object already created and already placed in
the body group (`RenderUpdates(self._snake.new_body)`), but `_has_tail`
still false. -/
def mainGameSnake : Snake :=
  { rect := { x := 296, y := 0, w := 49, h := 49 }
    movepos := (0, 49)
    state := Dir.down
    updated := false
    alive := true
    hasTail := false
    addTail := 0
    tailCount := 0
    chain := [true] }

/-- One gameplay tick as it affects the body chain: inside a MainGame loop
iteration, Apple.update runs first (calling `grow_body` exactly when the
apple is consumed this tick) and the snake's chain step runs afterwards in
Snake.update.  A session trace is the list of per-tick consumption flags. -/
def sessionChain : List Bool → Snake → Snake
  | [], s => s
  | g :: t, s => sessionChain t (Snake.chainStep (if g then Snake.grow_body s else s))

/-- State of the `Apple` sprite (objects.py, class Apple).  `alive` is
pygame group membership, `oldRect` is `_old_rect`, `spawnTimer` is the
fractional `_spawn_timer` that MainGame decrements by the frame time. -/
structure Apple where
  alive : Bool
  rect : Rect
  oldRect : Rect
  spawnTimer : ℚ
  deriving DecidableEq

/-- Set a rect's center, as the assignments to `rect.centerx` /
`rect.centery` in Apple._spawn do (pygame computes `x = centerx - w / 2`
with integer division). -/
def setCenter (r : Rect) (p : Int × Int) : Rect :=
  { r with x := p.1 - r.w / 2, y := p.2 - r.h / 2 }

/-- The acceptance test of Apple._spawn (objects.py:372-374): the sampled
candidate is kept unless it collides with the snake head AND collides with
some body-group sprite AND equals the previous rect — the conjunction as
written in the source. -/
def Apple.spawnAccept (snakeRect cand old : Rect) (bodies : List Rect) : Bool :=
  !(collideRect snakeRect cand && bodies.any (fun r => collideRect cand r) &&
    decide (cand = old))

/-- Apple._spawn (objects.py:347-376): repeatedly sample a center point,
recenter the rect there, and stop at the first candidate passing
`spawnAccept`.  The source loops on fresh `random.randint` draws until
success; here the draws are passed in as an explicit stream, and `none`
means the stream ran out before a candidate was accepted. -/
def Apple.spawn (a : Apple) (snakeRect : Rect) (bodies : List Rect) :
    List (Int × Int) → Option Apple
  | [] => none
  | p :: rest =>
    let cand := setCenter a.rect p
    let a1 := { a with rect := cand }
    if Apple.spawnAccept snakeRect cand a.oldRect bodies then some a1
    else Apple.spawn a1 snakeRect bodies rest

/-- State of the `ScoreText` sprite (objects.py, class ScoreText).
`rendered` is the score value the current text surface and its rect were
rendered from (`update_text` recomputes both from `self.score`). -/
structure ScoreText where
  score : Int
  oldScore : Int
  rendered : Int
  deriving DecidableEq

/-- ScoreText.update (objects.py:492-523): accumulate `added`, and only
when the new total differs from `old_score` re-render the text and
remember the total; the returned flag records whether the re-render
(display refresh) side effect ran. -/
def ScoreText.update (s : ScoreText) (added : Int) : ScoreText × Bool :=
  if s.score + added ≠ s.oldScore then
    ({ score := s.score + added, oldScore := s.score + added, rendered := s.score + added },
     true)
  else
    ({ s with score := s.score + added }, false)

/-- The mutable game objects Apple.update touches: the snake (via
`grow_body`), the apple itself, and the score sprite. -/
structure GameState where
  snake : Snake
  apple : Apple
  scores : ScoreText
  deriving DecidableEq

/-- Apple.update (objects.py:378-432): when the snake's rect overlaps the
apple's, and both sprites are alive, the snake grows, the apple is removed
from its group, and the score sprite is credited 50; then, when the spawn
timer has run out, a dead apple respawns (stream `cands` supplies the
random draws) and the timer resets to 5; finally `_old_rect` is set to the
current rect.  (The pure blits of lines 410-413 change no modeled state.) -/
def Apple.update (g : GameState) (bodies : List Rect) (cands : List (Int × Int)) :
    GameState :=
  let g1 :=
    if collideRect g.snake.rect g.apple.rect then
      if g.apple.alive then
        if g.snake.alive then
          { snake := Snake.grow_body g.snake,
            apple := { g.apple with alive := false },
            scores := (ScoreText.update g.scores 50).1 }
        else g
      else g
    else g
  let g2 :=
    if g1.apple.spawnTimer ≤ 0 then
      if g1.apple.alive then
        { g1 with apple := { g1.apple with spawnTimer := 5 } }
      else
        match Apple.spawn g1.apple g1.snake.rect bodies cands with
        | some a => { g1 with apple := { a with alive := true, spawnTimer := 5 } }
        | none => { g1 with apple := { g1.apple with spawnTimer := 5 } }
    else g1
  { g2 with apple := { g2.apple with oldRect := g2.apple.rect } }

/-- A record of the shape MainGame persists (game_init.py:118-122 and
_json_update): the keys "Date", "Time Played (in seconds)" and "Score", in
that insertion order.  The leaderboard's ten rank entries hold the same
three keys, so the same type models them. -/
structure SessionRecord where
  date : List Char
  time : Nat
  score : Nat
  deriving DecidableEq

/-- The opening-brace character of the JSON output. -/
def lbraceChar : Char := Char.ofNat 123

/-- The closing-brace character of the JSON output. -/
def rbraceChar : Char := Char.ofNat 125

/-- The double-quote character of the JSON output. -/
def quoteChar : Char := Char.ofNat 34

/-- The backslash character (starts an escape in JSON strings). -/
def bslashChar : Char := Char.ofNat 92

/-- The newline character emitted by `json.dumps(..., indent=3)`. -/
def nlChar : Char := Char.ofNat 10

/-- The space character. -/
def spChar : Char := Char.ofNat 32

/-- The colon character. -/
def colonChar : Char := Char.ofNat 58

/-- The comma character. -/
def commaChar : Char := Char.ofNat 44

/-- A decimal digit character. -/
def digitChar (d : Nat) : Char := Char.ofNat (48 + d)

/-- Whether a character is a decimal digit. -/
def isDig (c : Char) : Bool := decide (48 ≤ c.toNat) && decide (c.toNat ≤ 57)

/-- Little-endian base-10 digits of `n`, with explicit fuel so the
definition is structurally recursive; `fuel ≥ n` makes it exact. -/
def digitsFuel : Nat → Nat → List Nat
  | 0, _ => []
  | fuel + 1, n => if n = 0 then [] else n % 10 :: digitsFuel fuel (n / 10)

/-- Decimal rendering of a natural number, as Python prints an int. -/
def printNat (n : Nat) : List Char :=
  if n = 0 then [digitChar 0] else ((digitsFuel n n).map digitChar).reverse

/-- Value of a list of decimal digit characters, most significant first. -/
def parseDigits (l : List Char) : Nat :=
  l.foldl (fun a c => 10 * a + (c.toNat - 48)) 0

/-- Strip an expected literal prefix, failing on any mismatch. -/
def expectLit : List Char → List Char → Option (List Char)
  | [], s => some s
  | _ :: _, [] => none
  | c :: cs, x :: xs => if c = x then expectLit cs xs else none

/-- Read characters up to (and consuming) the first occurrence of `stop`. -/
def readUntil (stop : Char) : List Char → Option (List Char × List Char)
  | [] => none
  | c :: cs =>
    if c = stop then some ([], cs)
    else (readUntil stop cs).map (fun p => (c :: p.1, p.2))

/-- Read a nonempty run of decimal digits as a natural number. -/
def readNat (s : List Char) : Option (Nat × List Char) :=
  if (s.takeWhile isDig).isEmpty then none
  else some (parseDigits (s.takeWhile isDig), s.dropWhile isDig)

/-- The three-space indentation of `json.dumps(..., indent=3)`. -/
def ind3 : List Char := [spChar, spChar, spChar]

/-- The serialized text up to and including the opening quote of the Date
value. -/
def jsonPre : List Char :=
  [lbraceChar, nlChar] ++ ind3 ++ [quoteChar] ++ "Date".toList ++
  [quoteChar, colonChar, spChar, quoteChar]

/-- The serialized text between the Date value and the Time value. -/
def jsonMid1 : List Char :=
  [commaChar, nlChar] ++ ind3 ++ [quoteChar] ++ "Time Played (in seconds)".toList ++
  [quoteChar, colonChar, spChar]

/-- The serialized text between the Time value and the Score value. -/
def jsonMid2 : List Char :=
  [commaChar, nlChar] ++ ind3 ++ [quoteChar] ++ "Score".toList ++
  [quoteChar, colonChar, spChar]

/-- The serialized text after the Score value. -/
def jsonSuffix : List Char := [nlChar, rbraceChar]

/-- The exact file text `json.dumps(dict_obj, indent=3)` produces for a
session record whose date contains no character JSON needs to escape
(game_init.py:191). -/
def dumpSession (r : SessionRecord) : List Char :=
  jsonPre ++ r.date ++ [quoteChar] ++ jsonMid1 ++ printNat r.time ++
  jsonMid2 ++ printNat r.score ++ jsonSuffix

/-- Reading the session file back (`json.load` restricted to the grammar
_json_update writes): recover the three fields or fail. -/
def parseSession (s : List Char) : Option SessionRecord :=
  match expectLit jsonPre s with
  | none => none
  | some s1 =>
    match readUntil quoteChar s1 with
    | none => none
    | some (d, s2) =>
      match expectLit jsonMid1 s2 with
      | none => none
      | some s3 =>
        match readNat s3 with
        | none => none
        | some (t, s4) =>
          match expectLit jsonMid2 s4 with
          | none => none
          | some s5 =>
            match readNat s5 with
            | none => none
            | some (sc, s6) =>
              match expectLit jsonSuffix s6 with
              | none => none
              | some s7 =>
                if s7.isEmpty then some { date := d, time := t, score := sc }
                else none

/-- Every character of the date is one `json.dumps` copies verbatim:
printable and neither a quote nor a backslash.  `strftime("%Y/%m/%d")`
output always satisfies this. -/
def dateSafe (d : List Char) : Prop :=
  ∀ c ∈ d, 32 ≤ c.toNat ∧ c ≠ quoteChar ∧ c ≠ bslashChar

/-- The leaderboard scan of _json_update (game_init.py:200-210): walk the
ten rank entries in file order; at the first entry whose Score the player's
Score strictly exceeds, overwrite that entry's three fields with the
session record's and stop.  `none` means no entry was beaten and the file
is not rewritten. -/
def boardScan (rec : SessionRecord) : List SessionRecord → Option (List SessionRecord)
  | [] => none
  | e :: rest =>
    if rec.score > e.score then some (rec :: rest)
    else (boardScan rec rest).map (fun b => e :: b)

/-- Content of leaderboard.json as far as _json_update observes it: either
it parses into the rank entries in file order, or `json.load` (or the key
lookups) raise on it. -/
inductive BoardFile where
  | good (entries : List SessionRecord)
  | bad
  deriving DecidableEq

/-- The two files _json_update touches; `none` models a missing file. -/
structure FS where
  lastSession : Option (List Char)
  leaderboard : Option BoardFile
  deriving DecidableEq

/-- _json_update (game_init.py:168-217): first overwrite
last_session_info.json with the dumped record; then open and parse
leaderboard.json — a missing or malformed file raises there (flag `true` in
the result), after the last-session write and without touching the
leaderboard file; otherwise run the scan and rewrite leaderboard.json only
when the scan replaced an entry. -/
def jsonUpdate (rec : SessionRecord) (fs : FS) : FS × Bool :=
  let fs1 : FS := { fs with lastSession := some (dumpSession rec) }
  match fs1.leaderboard with
  | none => (fs1, true)
  | some BoardFile.bad => (fs1, true)
  | some (BoardFile.good board) =>
    match boardScan rec board with
    | none => (fs1, false)
    | some board1 => ({ fs1 with leaderboard := some (BoardFile.good board1) }, false)

/-- A snake head rect for the spawn-bug demonstration. -/
def snakeRectC1 : Rect := { x := 100, y := 100, w := 49, h := 49 }

/-- An apple state for the spawn-bug demonstration: dead, away from the
snake, with a previous rect that the candidate does not repeat. -/
def appleC1 : Apple :=
  { alive := false
    rect := { x := 0, y := 0, w := 50, h := 50 }
    oldRect := { x := 0, y := 0, w := 50, h := 50 }
    spawnTimer := 0 }

/-- The score field always accumulates the added amount, in both branches
of ScoreText.update. -/
theorem ScoreText.update_fst_score (s : ScoreText) (a : Int) :
    (ScoreText.update s a).1.score = s.score + a := by
  unfold ScoreText.update
  split <;> rfl

/-- The chain step leaves the snake's rect untouched. -/
theorem Snake.chainStep_rect (s : Snake) : (Snake.chainStep s).rect = s.rect := by
  unfold Snake.chainStep
  split <;> rfl

/-- The chain step leaves the snake's velocity untouched. -/
theorem Snake.chainStep_movepos (s : Snake) : (Snake.chainStep s).movepos = s.movepos := by
  unfold Snake.chainStep
  split <;> rfl

/-- A dead snake's update is a complete no-op. -/
theorem Snake.update_dead (s : Snake) (bodies : List Rect) (area : Rect)
    (h : s.alive = false) : Snake.update s bodies area = s := by
  unfold Snake.update
  rw [h]
  rfl

/-- A dead snake stays fixed under any further sequence of updates. -/
theorem updateMany_dead (s : Snake) (l : List (List Rect)) (area : Rect)
    (h : s.alive = false) : updateMany s l area = s := by
  induction l with
  | nil => rfl
  | cons bs t ih =>
    show updateMany (Snake.update s bs area) t area = s
    rw [Snake.update_dead s bs area h, ih]

/-- A positive-size rectangle lying entirely outside the display is not
contained in it. -/
theorem containsRect_eq_false_of_fullyOutside {r area : Rect}
    (h : fullyOutside r area = true) (hw : 0 < r.w) (hh : 0 < r.h) :
    containsRect area r = false := by
  rw [Bool.eq_false_iff]
  intro hc
  simp only [fullyOutside, Bool.or_eq_true, decide_eq_true_eq] at h
  simp only [containsRect, Bool.and_eq_true, decide_eq_true_eq] at hc
  rcases h with ((h | h) | h) | h <;> omega

/-- C1: the acceptance test of Apple._spawn is the conjunction written in
the source, so with no colliding body sprite a candidate overlapping the
snake head is accepted: the spawn returns a position colliding with the
snake head, contradicting the claimed rejection rule. -/
theorem apple_spawn_accepts_head_overlap_C1 :
    ∃ a : Apple, Apple.spawn appleC1 snakeRectC1 [] [(120, 120)] = some a
      ∧ collideRect snakeRectC1 a.rect = true :=
  ⟨_, rfl, rfl⟩

/-- C4: a direction-change request is a complete no-op unless the snake is
alive, the debounce flag is set, and the request is not on the current
direction's axis; on acceptance the new direction is the request and the
debounce flag is reset; consequently the resulting direction is never the
current direction's axis partner, so the snake cannot reverse within a
tick. -/
theorem snake_set_direction_C4 (d : Dir) (s : Snake) :
    ((s.alive = false ∨ s.updated = false ∨ sameAxis d s.state = true) → moveCmd d s = s)
    ∧ (s.alive = true → s.updated = true → sameAxis d s.state = false →
        (moveCmd d s).state = d ∧ (moveCmd d s).updated = false)
    ∧ ((moveCmd d s).state = s.state ∨ sameAxis (moveCmd d s).state s.state = false) := by
  cases d <;> cases hst : s.state <;> cases hu : s.updated <;> cases ha : s.alive <;>
    simp [moveCmd, Snake.moveup, Snake.movedown, Snake.moveleft, Snake.moveright,
      sameAxis, hst, hu, ha]

/-- C4 witness: from the initial downward state with the debounce flag set,
a left request is accepted and clears the flag. -/
theorem snake_set_direction_C4_witness :
    (moveCmd Dir.left { mainGameSnake with updated := true }).state = Dir.left
    ∧ (moveCmd Dir.left { mainGameSnake with updated := true }).updated = false :=
  (snake_set_direction_C4 Dir.left { mainGameSnake with updated := true }).2.1 rfl rfl rfl

/-- C8: ScoreText.update accumulates the added amount, re-renders the text
exactly when the new total differs from the value last rendered, leaves the
rendered text (and with it its rect) and `old_score` untouched otherwise,
and keeps `old_score` in sync with the rendered value. -/
theorem score_update_refresh_C8 (s : ScoreText) (added : Int)
    (hadd : 0 ≤ added) (hinv : s.oldScore = s.rendered) :
    (ScoreText.update s added).1.score = s.score + added
    ∧ ((ScoreText.update s added).2 = true ↔ s.score + added ≠ s.rendered)
    ∧ ((ScoreText.update s added).2 = false →
        (ScoreText.update s added).1.rendered = s.rendered
        ∧ (ScoreText.update s added).1.oldScore = s.oldScore)
    ∧ (ScoreText.update s added).1.oldScore = (ScoreText.update s added).1.rendered := by
  unfold ScoreText.update
  by_cases h : s.score + added = s.oldScore
  · rw [hinv] at h
    simp [h, hinv]
  · rw [hinv] at h
    simp [h, hinv]

/-- C8 witness: adding 50 to a fresh score tracker re-renders, and the
total accumulates. -/
theorem score_update_refresh_C8_witness :
    (ScoreText.update { score := 0, oldScore := 0, rendered := 0 } 50).1.score = 0 + 50
    ∧ ((ScoreText.update { score := 0, oldScore := 0, rendered := 0 } 50).2 = true
        ↔ (0 : Int) + 50 ≠ 0) :=
  ⟨(score_update_refresh_C8 { score := 0, oldScore := 0, rendered := 0 } 50
      (by decide) rfl).1,
   (score_update_refresh_C8 { score := 0, oldScore := 0, rendered := 0 } 50
      (by decide) rfl).2.1⟩

/-- C5: when an alive snake's rect, after moving by its velocity, lies
fully outside the display, Snake.update kills it, and from then on no
update (with any body groups) changes its state, in particular its
position, again. -/
theorem snake_boundary_death_C5 (s : Snake) (bodies : List Rect) (area : Rect)
    (ha : s.alive = true)
    (hout : fullyOutside (rectMove s.rect s.movepos) area = true)
    (hw : 0 < s.rect.w) (hh : 0 < s.rect.h) :
    (Snake.update s bodies area).alive = false
    ∧ ∀ l : List (List Rect),
        updateMany (Snake.update s bodies area) l area = Snake.update s bodies area := by
  have hc : containsRect area (rectMove (Snake.chainStep s).rect (Snake.chainStep s).movepos)
      = false := by
    rw [Snake.chainStep_rect, Snake.chainStep_movepos]
    exact containsRect_eq_false_of_fullyOutside hout hw hh
  have halive : (Snake.update s bodies area).alive = false := by
    unfold Snake.update
    rw [ha]
    simp only [if_true]
    rw [hc]
    simp only [Bool.false_eq_true, if_false]
    split <;> rfl
  exact ⟨halive, fun l => updateMany_dead _ l area halive⟩

/-- C5 witness: the starting snake placed on the bottom edge moves fully
below the 640x640 display, dies, and one further update leaves it fixed. -/
theorem snake_boundary_death_C5_witness :
    (Snake.update { mainGameSnake with rect := { x := 296, y := 640, w := 49, h := 49 } }
        [] { x := 0, y := 0, w := 640, h := 640 }).alive = false
    ∧ updateMany
        (Snake.update { mainGameSnake with rect := { x := 296, y := 640, w := 49, h := 49 } }
          [] { x := 0, y := 0, w := 640, h := 640 })
        [[], []] { x := 0, y := 0, w := 640, h := 640 }
      = Snake.update { mainGameSnake with rect := { x := 296, y := 640, w := 49, h := 49 } }
          [] { x := 0, y := 0, w := 640, h := 640 } :=
  ⟨(snake_boundary_death_C5 _ [] _ rfl (by decide) (by decide) (by decide)).1,
   (snake_boundary_death_C5 _ [] _ rfl (by decide) (by decide) (by decide)).2 [[], []]⟩

/-- C6: when an alive snake's moved rect coincides in position with the
rect of any member of the body group (any live body segment, all of which
the `spritecollideany` scan visits), Snake.update kills the snake. -/
theorem snake_self_collision_death_C6 (s : Snake) (bodies : List Rect) (area : Rect)
    (ha : s.alive = true)
    (hw : 0 < s.rect.w) (hh : 0 < s.rect.h)
    (hmem : ∃ r ∈ bodies,
        r.x = (rectMove s.rect s.movepos).x ∧ r.y = (rectMove s.rect s.movepos).y
        ∧ 0 < r.w ∧ 0 < r.h) :
    (Snake.update s bodies area).alive = false := by
  obtain ⟨r, hr, hx, hy, hrw, hrh⟩ := hmem
  have hany : bodies.any
      (fun b => collideRect (rectMove (Snake.chainStep s).rect (Snake.chainStep s).movepos) b)
      = true := by
    rw [List.any_eq_true]
    refine ⟨r, hr, ?_⟩
    rw [Snake.chainStep_rect, Snake.chainStep_movepos]
    simp only [collideRect, rectMove, Bool.and_eq_true, decide_eq_true_eq] at *
    omega
  unfold Snake.update
  rw [ha]
  simp only [if_true]
  rw [hany]
  rfl

/-- C6 witness: a body segment sitting exactly one cell below the starting
snake head kills the snake on the next downward step. -/
theorem snake_self_collision_death_C6_witness :
    (Snake.update mainGameSnake [{ x := 296, y := 49, w := 49, h := 49 }]
        { x := 0, y := 0, w := 640, h := 640 }).alive = false :=
  snake_self_collision_death_C6 mainGameSnake [{ x := 296, y := 49, w := 49, h := 49 }]
    { x := 0, y := 0, w := 640, h := 640 } rfl (by decide) (by decide)
    ⟨{ x := 296, y := 49, w := 49, h := 49 }, by decide, by decide, by decide, by decide, by decide⟩

/-- C7: in an Apple.update tick where a live snake's rect meets a live
apple's rect and the spawn timer has not yet run out, the apple leaves its
group (is removed from the grid), the snake's grow_body is invoked exactly
once, and the score total is credited exactly 50. -/
theorem apple_consumption_C7 (g : GameState) (bodies : List Rect)
    (cands : List (Int × Int))
    (hc : collideRect g.snake.rect g.apple.rect = true)
    (ha : g.apple.alive = true) (hs : g.snake.alive = true)
    (ht : 0 < g.apple.spawnTimer) :
    (Apple.update g bodies cands).apple.alive = false
    ∧ (Apple.update g bodies cands).snake = Snake.grow_body g.snake
    ∧ (Apple.update g bodies cands).scores.score = g.scores.score + 50 := by
  have hnt : ¬(g.apple.spawnTimer ≤ 0) := not_le.mpr ht
  unfold Apple.update
  rw [hc, ha, hs]
  simp only [if_true, hnt, if_false]
  simpa using ScoreText.update_fst_score g.scores 50

/-- C7 witness: the starting snake on top of a freshly spawned apple at the
same cell consumes it. -/
theorem apple_consumption_C7_witness :
    (Apple.update
        { snake := mainGameSnake,
          apple := { alive := true, rect := { x := 296, y := 0, w := 50, h := 50 },
                     oldRect := { x := 0, y := 0, w := 50, h := 50 }, spawnTimer := 5 },
          scores := { score := 0, oldScore := 0, rendered := 0 } }
        [] []).apple.alive = false
    ∧ (Apple.update
        { snake := mainGameSnake,
          apple := { alive := true, rect := { x := 296, y := 0, w := 50, h := 50 },
                     oldRect := { x := 0, y := 0, w := 50, h := 50 }, spawnTimer := 5 },
          scores := { score := 0, oldScore := 0, rendered := 0 } }
        [] []).scores.score = 0 + 50 :=
  ⟨(apple_consumption_C7 _ [] [] (by decide) rfl rfl (by decide)).1,
   (apple_consumption_C7 _ [] [] (by decide) rfl rfl (by decide)).2.2⟩

/-- One Body.update pass appends at most one node to the chain. -/
theorem Body.update_length (c : List Bool) (n : Nat) :
    (Body.update c n).length ≤ c.length + 1 := by
  induction c generalizing n with
  | nil => simp [Body.update]
  | cons b rest ih =>
    cases n with
    | zero =>
      cases rest with
      | nil => simp [Body.update]
      | cons x xs => simp [Body.update]
    | succ n =>
      have := ih n
      simp only [Body.update, List.length_cons]
      omega

/-- Running the chain with count `k` on a chain of `k` live nodes, one
trailing dead node, makes that node live and appends one dead node. -/
theorem Body.update_replicate (k : Nat) :
    Body.update (List.replicate k true ++ [false]) k
      = List.replicate (k + 1) true ++ [false] := by
  induction k with
  | zero => rfl
  | succ k ih =>
    simp only [List.replicate_succ, List.cons_append, Body.update, List.append_eq]
    rw [ih]
    simp [List.replicate_succ, List.cons_append]

/-- Running the chain with count zero on a nonempty live prefix changes
nothing: the head node is already live and already has a tail. -/
theorem Body.update_zero_replicate (k : Nat) (hk : 1 ≤ k) :
    Body.update (List.replicate k true ++ [false]) 0
      = List.replicate k true ++ [false] := by
  cases k with
  | zero => omega
  | succ k =>
    simp only [List.replicate_succ, List.cons_append, Body.update]
    simp

/-- Invariant tying the number of growth events seen so far to the snake's
growth counters and chain: before the first apple the pre-created node is
the whole (already live) chain; afterwards, `n` growth events leave `n`
live nodes, one trailing dead node, and `_add_tail = n - 1`. -/
def chainInv (n : Nat) (s : Snake) : Prop :=
  (n = 0 ∧ s.hasTail = false ∧ s.addTail = 0 ∧ s.tailCount = 0 ∧ s.chain = [true])
  ∨ (1 ≤ n ∧ s.hasTail = true ∧ s.addTail = n - 1 ∧ s.tailCount = 0
      ∧ s.chain = List.replicate n true ++ [false])

/-- The invariant is preserved by one tick (an optional growth event
followed by the chain step of Snake.update). -/
theorem chainInv_step (n : Nat) (s : Snake) (g : Bool) (h : chainInv n s) :
    chainInv (n + (if g then 1 else 0))
      (Snake.chainStep (if g then Snake.grow_body s else s)) := by
  cases g with
  | false =>
    simp only [if_false, Bool.false_eq_true, Nat.add_zero]
    rcases h with ⟨h0, hht, hat, htc, hch⟩ | ⟨h1, hht, hat, htc, hch⟩
    · left
      refine ⟨h0, ?_, ?_, ?_, ?_⟩ <;> simp [Snake.chainStep, hht, hat, htc, hch]
    · right
      refine ⟨h1, ?_, ?_, ?_, ?_⟩ <;>
        simp [Snake.chainStep, hht, hat, htc, hch, Body.update_zero_replicate n h1]
  | true =>
    simp only [if_true]
    rcases h with ⟨h0, hht, hat, htc, hch⟩ | ⟨h1, hht, hat, htc, hch⟩
    · right
      subst h0
      refine ⟨by omega, ?_, ?_, ?_, ?_⟩ <;>
        simp [Snake.chainStep, Snake.grow_body, hht, hat, htc, hch, Body.update]
    · right
      have hn : n - 1 + 1 = n := by omega
      refine ⟨by omega, ?_, ?_, ?_, ?_⟩ <;>
        simp [Snake.chainStep, Snake.grow_body, hht, hat, htc, hch, hn, h1,
          Body.update_replicate, Nat.lt_of_lt_of_le Nat.zero_lt_one h1]

/-- The invariant holds along any session trace of per-tick growth flags. -/
theorem chainInv_trace (t : List Bool) (s : Snake) (n : Nat) (h : chainInv n s) :
    chainInv (n + t.count true) (sessionChain t s) := by
  induction t generalizing s n with
  | nil => simpa using h
  | cons g t ih =>
    cases g with
    | false =>
      have h1 := chainInv_step n s false h
      simp only [if_false, Bool.false_eq_true, Nat.add_zero] at h1
      have h2 := ih _ n h1
      simpa [List.count_cons] using h2
    | true =>
      have h1 := chainInv_step n s true h
      simp only [if_true] at h1
      have h2 := ih _ (n + 1) h1
      have hc : (true :: t).count true = t.count true + 1 := by
        simp [List.count_cons]
      rw [hc]
      have : n + 1 + t.count true = n + (t.count true + 1) := by omega
      rw [← this]
      exact h2

/-- C2 counterexample: after a one-tick session with no apple consumed
(N = 0), the body group already holds one live Body sprite (the node
`Snake.__init__` creates and MainGame puts into the group), so the chain
does not have exactly N = 0 segments. -/
theorem body_growth_C2_counterexample :
    ¬((sessionChain [false] mainGameSnake).chain.count true = 0) := by decide

/-- C2 amended: along every session trace the number of live body-chain
sprites is max 1 N for N consumed apples — N for every N ≥ 1, but one
pre-created live segment exists before the first apple — and every single
Body.update call grows the chain by at most one node however many growth
requests are outstanding. -/
theorem body_growth_C2_amended :
    (∀ t : List Bool,
        (sessionChain t mainGameSnake).chain.count true = max 1 (t.count true))
    ∧ ∀ (c : List Bool) (n : Nat), (Body.update c n).length ≤ c.length + 1 := by
  constructor
  · intro t
    have h0 : chainInv 0 mainGameSnake := by
      left
      exact ⟨rfl, rfl, rfl, rfl, rfl⟩
    have h := chainInv_trace t mainGameSnake 0 h0
    simp only [Nat.zero_add] at h
    rcases h with ⟨h0', _, _, _, hch⟩ | ⟨h1, _, _, _, hch⟩
    · rw [hch, h0']
      rfl
    · rw [hch]
      have : max 1 (t.count true) = t.count true := Nat.max_eq_right h1
      rw [this]
      simp [List.count_append, List.count_replicate]
  · exact Body.update_length

/-- When the record beats no entry, the scan finds nothing to replace. -/
theorem boardScan_none (rec : SessionRecord) (b : List SessionRecord)
    (h : ∀ e ∈ b, rec.score ≤ e.score) : boardScan rec b = none := by
  induction b with
  | nil => rfl
  | cons a rest ih =>
    have ha : ¬(rec.score > a.score) := not_lt.mpr (h a (List.mem_cons_self a rest))
    simp [boardScan, ha, ih (fun x hx => h x (List.mem_cons_of_mem a hx))]

/-- When some entry is beaten, the scan replaces exactly the first beaten
entry and leaves the rest of the list as a `List.set` does. -/
theorem boardScan_some (rec : SessionRecord) (b : List SessionRecord)
    (h : ∃ e ∈ b, e.score < rec.score) :
    ∃ i e, b[i]? = some e ∧ e.score < rec.score
      ∧ (∀ j, j < i → ∀ e', b[j]? = some e' → rec.score ≤ e'.score)
      ∧ boardScan rec b = some (b.set i rec) := by
  induction b with
  | nil => simp at h
  | cons a rest ih =>
    by_cases ha : rec.score > a.score
    · refine ⟨0, a, by simp, ha, ?_, ?_⟩
      · intro j hj
        exact absurd hj (Nat.not_lt_zero j)
      · simp [boardScan, ha]
    · have hrest : ∃ e ∈ rest, e.score < rec.score := by
        rcases h with ⟨e, he, hlt⟩
        rcases List.mem_cons.mp he with rfl | hmem
        · exact absurd hlt ha
        · exact ⟨e, hmem, hlt⟩
      obtain ⟨i, e, hget, hlt, hpre, hscan⟩ := ih hrest
      refine ⟨i + 1, e, by simpa using hget, hlt, ?_, ?_⟩
      · intro j hj e' hget'
        cases j with
        | zero =>
          simp only [List.getElem?_cons_zero, Option.some.injEq] at hget'
          rw [← hget']
          exact not_lt.mp ha
        | succ j =>
          exact hpre j (Nat.lt_of_succ_lt_succ hj) e' (by simpa using hget')
      · simp [boardScan, ha, hscan]

/-- C3: on a well-formed ten-entry leaderboard, _json_update leaves the
leaderboard file untouched (and raises nothing) when the session score
beats no entry, and otherwise rewrites it with exactly the first beaten
entry (in First-to-Tenth file order) replaced by the session record's
Date, Time Played and Score, all other entries unchanged. -/
theorem leaderboard_update_C3 (rec : SessionRecord) (fs : FS)
    (board : List SessionRecord)
    (hb : fs.leaderboard = some (BoardFile.good board)) (hlen : board.length = 10) :
    ((∀ e ∈ board, rec.score ≤ e.score) →
        (jsonUpdate rec fs).1.leaderboard = fs.leaderboard
        ∧ (jsonUpdate rec fs).2 = false)
    ∧ ((∃ e ∈ board, e.score < rec.score) →
        ∃ i e, board[i]? = some e ∧ e.score < rec.score
          ∧ (∀ j, j < i → ∀ e', board[j]? = some e' → rec.score ≤ e'.score)
          ∧ (jsonUpdate rec fs).1.leaderboard
              = some (BoardFile.good (board.set i rec))
          ∧ ∀ j, j ≠ i → (board.set i rec)[j]? = board[j]?) := by
  constructor
  · intro h
    have hscan := boardScan_none rec board h
    simp [jsonUpdate, hb, hscan]
  · intro h
    obtain ⟨i, e, hget, hlt, hpre, hscan⟩ := boardScan_some rec board h
    refine ⟨i, e, hget, hlt, hpre, ?_, ?_⟩
    · simp [jsonUpdate, hb, hscan]
    · intro j hj
      exact List.getElem?_set_ne (Ne.symm hj)

/-- C3 witness: on a concrete ten-entry board whose scores are all at least
the session's score, nothing is rewritten. -/
theorem leaderboard_update_C3_witness :
    (jsonUpdate { date := [], time := 3, score := 1 }
        { lastSession := none,
          leaderboard := some (BoardFile.good (List.replicate 10
            { date := [], time := 0, score := 7 })) }).1.leaderboard
      = some (BoardFile.good (List.replicate 10 { date := [], time := 0, score := 7 }))
    ∧ (jsonUpdate { date := [], time := 3, score := 1 }
        { lastSession := none,
          leaderboard := some (BoardFile.good (List.replicate 10
            { date := [], time := 0, score := 7 })) }).2 = false :=
  (leaderboard_update_C3 { date := [], time := 3, score := 1 } _
      (List.replicate 10 { date := [], time := 0, score := 7 }) rfl (by decide)).1
    (by decide)

/-- C10: _json_update writes last_session_info.json before it ever opens
leaderboard.json, so when the leaderboard file is missing or malformed the
call raises, yet the last-session file already holds the new record and the
leaderboard file is untouched. -/
theorem json_update_order_C10 (rec : SessionRecord) (fs : FS)
    (h : fs.leaderboard = none ∨ fs.leaderboard = some BoardFile.bad) :
    (jsonUpdate rec fs).1.lastSession = some (dumpSession rec)
    ∧ (jsonUpdate rec fs).1.leaderboard = fs.leaderboard
    ∧ (jsonUpdate rec fs).2 = true := by
  rcases h with h | h <;> simp [jsonUpdate, h]

/-- C10 witness: with no leaderboard file present, the last-session file is
still written and the leaderboard stays absent. -/
theorem json_update_order_C10_witness :
    (jsonUpdate { date := [], time := 1, score := 2 }
        { lastSession := none, leaderboard := none }).1.lastSession
      = some (dumpSession { date := [], time := 1, score := 2 })
    ∧ (jsonUpdate { date := [], time := 1, score := 2 }
        { lastSession := none, leaderboard := none }).1.leaderboard = none
    ∧ (jsonUpdate { date := [], time := 1, score := 2 }
        { lastSession := none, leaderboard := none }).2 = true :=
  json_update_order_C10 { date := [], time := 1, score := 2 }
    { lastSession := none, leaderboard := none } (Or.inl rfl)

/-- Stripping a literal prefix from itself followed by anything succeeds
with the remainder. -/
theorem expectLit_append (l r : List Char) : expectLit l (l ++ r) = some r := by
  induction l with
  | nil => rfl
  | cons c cs ih => simp [expectLit, ih]

/-- Reading up to a stop character that does not occur in the prefix
returns exactly that prefix and the remainder past the stop. -/
theorem readUntil_append (stop : Char) (a b : List Char) (h : stop ∉ a) :
    readUntil stop (a ++ stop :: b) = some (a, b) := by
  induction a with
  | nil => simp [readUntil]
  | cons c cs ih =>
    have hc : ¬(c = stop) := fun hh => h (hh ▸ List.mem_cons_self c cs)
    simp [readUntil, hc, ih (fun hm => h (List.mem_cons_of_mem c hm))]

/-- Value of a little-endian digit list. -/
def valLE : List Nat → Nat
  | [] => 0
  | d :: ds => d + 10 * valLE ds

/-- With enough fuel, the fuelled digit expansion is exact. -/
theorem valLE_digitsFuel (fuel n : Nat) (h : n ≤ fuel) :
    valLE (digitsFuel fuel n) = n := by
  induction fuel generalizing n with
  | zero =>
    have : n = 0 := Nat.le_zero.mp h
    subst this
    rfl
  | succ fuel ih =>
    by_cases hn : n = 0
    · subst hn
      rfl
    · have hdiv : n / 10 ≤ fuel := by
        have : n / 10 < n := Nat.div_lt_self (Nat.pos_of_ne_zero hn) (by norm_num)
        omega
      simp only [digitsFuel, hn, if_false, valLE, ih _ hdiv]
      omega

/-- All fuelled digits are below the base. -/
theorem digitsFuel_lt (fuel n : Nat) : ∀ d ∈ digitsFuel fuel n, d < 10 := by
  induction fuel generalizing n with
  | zero => simp [digitsFuel]
  | succ fuel ih =>
    by_cases hn : n = 0
    · simp [digitsFuel, hn]
    · intro d hd
      simp only [digitsFuel, hn, if_false, List.mem_cons] at hd
      rcases hd with rfl | hd
      · exact Nat.mod_lt n (by norm_num)
      · exact ih _ d hd

/-- Digit characters are digits. -/
theorem digitChar_isDig (d : Nat) (h : d < 10) : isDig (digitChar d) = true := by
  interval_cases d <;> decide

/-- The numeric value of a digit character. -/
theorem digitChar_val (d : Nat) (h : d < 10) : (digitChar d).toNat - 48 = d := by
  interval_cases d <;> decide

/-- Folding over a one-longer digit string multiplies by ten and adds. -/
theorem parseDigits_append_last (xs : List Char) (c : Char) :
    parseDigits (xs ++ [c]) = 10 * parseDigits xs + (c.toNat - 48) := by
  simp [parseDigits, List.foldl_append]

/-- Parsing the reversed (big-endian) rendering of a digit list recovers
its value. -/
theorem parseDigits_rev_map (ds : List Nat) (h : ∀ d ∈ ds, d < 10) :
    parseDigits ((ds.map digitChar).reverse) = valLE ds := by
  induction ds with
  | nil => rfl
  | cons d ds ih =>
    have hd : d < 10 := h d (List.mem_cons_self d ds)
    have ihh := ih (fun x hx => h x (List.mem_cons_of_mem d hx))
    simp only [List.map_cons, List.reverse_cons, parseDigits_append_last, ihh,
      digitChar_val d hd, valLE]
    omega

/-- Parsing the decimal rendering of a natural number recovers it. -/
theorem parseDigits_printNat (n : Nat) : parseDigits (printNat n) = n := by
  by_cases hn : n = 0
  · subst hn
    rfl
  · unfold printNat
    rw [if_neg hn, parseDigits_rev_map _ (digitsFuel_lt n n)]
    exact valLE_digitsFuel n n (Nat.le_refl n)

/-- Every character of a printed natural number is a digit. -/
theorem printNat_isDig (n : Nat) : ∀ c ∈ printNat n, isDig c = true := by
  intro c hc
  by_cases hn : n = 0
  · subst hn
    simp only [printNat, if_true] at hc
    simp only [List.mem_singleton] at hc
    subst hc
    decide
  · simp only [printNat, hn, if_false, List.mem_reverse, List.mem_map] at hc
    obtain ⟨d, hd, rfl⟩ := hc
    exact digitChar_isDig d (digitsFuel_lt n n d hd)

/-- A printed natural number is never the empty string. -/
theorem printNat_ne_nil (n : Nat) : printNat n ≠ [] := by
  by_cases hn : n = 0
  · subst hn
    simp [printNat]
  · cases hfn : n with
    | zero => exact absurd hfn hn
    | succ m =>
      simp [printNat, hn, hfn, digitsFuel]

/-- takeWhile / dropWhile split around the first failing character. -/
theorem takeWhile_dropWhile_append (p : Char → Bool) (a : List Char)
    (h : ∀ c ∈ a, p c = true) (x : Char) (hx : p x = false) (t : List Char) :
    (a ++ x :: t).takeWhile p = a ∧ (a ++ x :: t).dropWhile p = x :: t := by
  induction a with
  | nil => simp [List.takeWhile_cons, List.dropWhile_cons, hx]
  | cons c cs ih =>
    have hc : p c = true := h c (List.mem_cons_self c cs)
    have hrec := ih (fun y hy => h y (List.mem_cons_of_mem c hy))
    simp [List.takeWhile_cons, List.dropWhile_cons, hc, hrec.1, hrec.2]

/-- Reading a number off a printed natural followed by a non-digit
recovers the number and leaves the remainder alone. -/
theorem readNat_print (n : Nat) (x : Char) (hx : isDig x = false) (t : List Char) :
    readNat (printNat n ++ x :: t) = some (n, x :: t) := by
  have hsplit := takeWhile_dropWhile_append isDig (printNat n) (printNat_isDig n) x hx t
  have hne : (printNat n).isEmpty = false := by
    cases hp : printNat n with
    | nil => exact absurd hp (printNat_ne_nil n)
    | cons c cs => rfl
  unfold readNat
  rw [hsplit.1, hsplit.2, hne]
  simp [parseDigits_printNat]

/-- The tail of `jsonMid1` past its leading comma. -/
def jsonMid1Tail : List Char :=
  [nlChar] ++ ind3 ++ [quoteChar] ++ "Time Played (in seconds)".toList ++
  [quoteChar, colonChar, spChar]

/-- The tail of `jsonMid2` past its leading comma. -/
def jsonMid2Tail : List Char :=
  [nlChar] ++ ind3 ++ [quoteChar] ++ "Score".toList ++ [quoteChar, colonChar, spChar]

/-- C9: writing a session record through _json_update puts exactly its
`json.dumps` text into last_session_info.json, and reading that text back
recovers the identical record. -/
theorem session_roundtrip_C9 (rec : SessionRecord) (fs : FS)
    (hd : dateSafe rec.date) :
    (jsonUpdate rec fs).1.lastSession = some (dumpSession rec)
    ∧ parseSession (dumpSession rec) = some rec := by
  have hq : quoteChar ∉ rec.date := fun hm => (hd quoteChar hm).2.1 rfl
  constructor
  · rcases fs with ⟨ls, lb⟩
    simp only [jsonUpdate]
    cases lb with
    | none => rfl
    | some bf =>
      cases bf with
      | bad => rfl
      | good board =>
        dsimp only
        cases boardScan rec board <;> rfl
  · have e1 : expectLit jsonPre (dumpSession rec)
        = some (rec.date ++ quoteChar ::
            (jsonMid1 ++ (printNat rec.time ++
              (jsonMid2 ++ (printNat rec.score ++ jsonSuffix))))) := by
      unfold dumpSession
      rw [show jsonPre ++ rec.date ++ [quoteChar] ++ jsonMid1 ++ printNat rec.time ++
            jsonMid2 ++ printNat rec.score ++ jsonSuffix
          = jsonPre ++ (rec.date ++ quoteChar ::
              (jsonMid1 ++ (printNat rec.time ++
                (jsonMid2 ++ (printNat rec.score ++ jsonSuffix))))) by
        simp [List.append_assoc]]
      exact expectLit_append _ _
    have e2 : readUntil quoteChar (rec.date ++ quoteChar ::
          (jsonMid1 ++ (printNat rec.time ++
            (jsonMid2 ++ (printNat rec.score ++ jsonSuffix)))))
        = some (rec.date,
            jsonMid1 ++ (printNat rec.time ++
              (jsonMid2 ++ (printNat rec.score ++ jsonSuffix)))) :=
      readUntil_append _ _ _ hq
    have e3 : expectLit jsonMid1
          (jsonMid1 ++ (printNat rec.time ++
            (jsonMid2 ++ (printNat rec.score ++ jsonSuffix))))
        = some (printNat rec.time ++ (jsonMid2 ++ (printNat rec.score ++ jsonSuffix))) :=
      expectLit_append _ _
    have e4 : readNat (printNat rec.time ++ (jsonMid2 ++ (printNat rec.score ++ jsonSuffix)))
        = some (rec.time, jsonMid2 ++ (printNat rec.score ++ jsonSuffix)) :=
      readNat_print rec.time commaChar (by decide)
        (jsonMid2Tail ++ (printNat rec.score ++ jsonSuffix))
    have e5 : expectLit jsonMid2 (jsonMid2 ++ (printNat rec.score ++ jsonSuffix))
        = some (printNat rec.score ++ jsonSuffix) :=
      expectLit_append _ _
    have e6 : readNat (printNat rec.score ++ jsonSuffix) = some (rec.score, jsonSuffix) :=
      readNat_print rec.score nlChar (by decide) [rbraceChar]
    have e7 : expectLit jsonSuffix jsonSuffix = some [] := by
      have h := expectLit_append jsonSuffix []
      rwa [List.append_nil] at h
    simp only [parseSession, e1, e2, e3, e4, e5, e6, e7, List.isEmpty_nil, if_true]

/-- C9 witness: a concrete record written and read back unchanged. -/
theorem session_roundtrip_C9_witness :
    (jsonUpdate { date := "2026/10/12".toList, time := 12, score := 50 }
        { lastSession := none, leaderboard := none }).1.lastSession
      = some (dumpSession { date := "2026/10/12".toList, time := 12, score := 50 })
    ∧ parseSession (dumpSession { date := "2026/10/12".toList, time := 12, score := 50 })
      = some { date := "2026/10/12".toList, time := 12, score := 50 } :=
  session_roundtrip_C9 { date := "2026/10/12".toList, time := 12, score := 50 }
    { lastSession := none, leaderboard := none } (by unfold dateSafe; decide)
